import Mathlib

/-!
# Meridian securities engine: formal model of the pool / position / order math

Shallow embedding of the arithmetic core of `programs/securities-engine`
(`state/pool.rs`, `state/position.rs`, `state/order.rs`, `state/market.rs`,
`lib.rs`).  Machine integers (`u64`, `u128`, `i64`, `i128`) are modelled as
`Nat` / `Int`; wherever the Rust source can abort (overflow of a checked
operation, subtraction underflow, division by zero — all of which abort the
Solana transaction), the model returns `RResult.panic`; truncating `as uN`
casts are modelled with explicit `% 2^N`.
-/

namespace Meridian

/-- Result of running a piece of Rust code: either a value, or an abort
(arithmetic overflow / underflow / division by zero panics the program). -/
inductive RResult (α : Type) where
  | ok : α → RResult α
  | panic : RResult α
deriving DecidableEq, Repr

/-- `u64::MAX`. -/
def u64Max : Nat := 18446744073709551615

/-- `u64::saturating_add`. -/
def satAdd64 (a b : Nat) : Nat := min (a + b) u64Max

/-- `u128::MAX`. -/
def u128Max : Nat := 340282366920938463463374607431768211455

/-- `i64::MIN` and `i64::MAX` bounds as integers. -/
def i64Min : Int := -9223372036854775808
def i64Max : Int := 9223372036854775807

/-- `i128` bounds. -/
def i128Min : Int := -170141183460469231731687303715884105728
def i128Max : Int := 170141183460469231731687303715884105727

/-- Checked `i64` subtraction: Rust `a - b` on `i64` aborts on overflow. -/
def i64sub (a b : Int) : RResult Int :=
  if i64Min ≤ a - b ∧ a - b ≤ i64Max then .ok (a - b) else .panic

/-- Rust's `as f64` conversion of a nonnegative integer (`u128 as f64`),
returned as the exact integer value of the resulting double.  Integers
below `2 ^ 53` are exactly representable; otherwise the value is rounded to
the nearest multiple of `2 ^ (⌊log2 x⌋ - 52)` (53-bit mantissa), a tie
going to the even mantissa — IEEE round-to-nearest-even, which is the
rounding Rust's integer-to-float `as` cast performs. -/
def f64_of_u128 (x : Nat) : Nat :=
  if x < 2 ^ 53 then x
  else
    let g := Nat.log2 x
    let step := 2 ^ (g - 52)
    let q := x / step
    let r := x % step
    if 2 * r < step then q * step
    else if step < 2 * r then (q + 1) * step
    else if q % 2 = 0 then q * step else (q + 1) * step

/-- Truncation toward zero of the IEEE double square root of a double
holding the exact integer `v` — the `.sqrt() as u64` composition, minus the
final saturation (the caller applies `min · u64Max`).  IEEE `sqrt` is
correctly rounded, round-to-nearest ties-to-even.  Write `s = ⌊√v⌋` and
`E = ⌊log2 s⌋`, so `√v ∈ [s, s + 1) ⊆ [2^E, 2^(E+1))`:

* `E ≤ 52`: doubles around `√v` are spaced `2^(E-52) ≤ 1` apart and both
  `s` and `s + 1` are doubles, so the rounded root lies in `[s, s + 1]` and
  truncates to `s + 1` exactly when it rounds up to `s + 1`, i.e. when `√v`
  lies beyond the midpoint `(s + 1) - 2^(E-53)` between `s + 1` and its
  predecessor double; squaring and scaling by `4^(53-E)` turns that into
  the integer test below.  A tie would equate the odd square
  `((s+1)·2^(53-E) - 1)²` with the even `v·4^(53-E)`, so none occurs and
  truncation otherwise yields `s`.
* `E ≥ 53`: doubles near `√v` are the multiples of `u = 2^(E-52)`; with
  `m = ⌊s / u⌋` the root lies in `[m·u, (m+1)·u)` and rounds to whichever
  endpoint is nearer — past the midpoint iff `u²(2m+1)² < 4v` — an exact
  midpoint `u²(2m+1)² = 4v` resolving to the even mantissa of `m, m + 1`.
  Both endpoints are integers, so truncation is the identity. -/
def f64_sqrt_trunc (v : Nat) : Nat :=
  if v = 0 then 0
  else
    let s := Nat.sqrt v
    let E := Nat.log2 s
    if E ≤ 52 then
      if ((s + 1) * 2 ^ (53 - E) - 1) ^ 2 < v * 4 ^ (53 - E) then s + 1
      else s
    else
      let u := 2 ^ (E - 52)
      let m := s / u
      if u ^ 2 * (2 * m + 1) ^ 2 < 4 * v then (m + 1) * u
      else if u ^ 2 * (2 * m + 1) ^ 2 = 4 * v then
        (if m % 2 = 0 then m * u else (m + 1) * u)
      else m * u

/-- State of `Pool` (pool.rs) restricted to the arithmetic fields; the
`Pubkey` handles and the bump seed play no role in the math. -/
structure Pool where
  security_liquidity : Nat
  quote_liquidity : Nat
  lp_supply : Nat
  accumulated_fees_security : Nat
  accumulated_fees_quote : Nat
  twap : Nat
  twap_last_update : Int
  cumulative_price : Nat
  k_last : Nat
  is_active : Bool
  created_at : Int
deriving DecidableEq, Repr

namespace Pool

/-- `Pool::PRICE_PRECISION`. -/
def PRICE_PRECISION : Nat := 1000000

/-- `Pool::get_spot_price`: `quote * 1e6 / security` with the final
`as u64` truncating cast. -/
def get_spot_price (p : Pool) : Nat :=
  if p.security_liquidity = 0 then 0
  else (p.quote_liquidity * PRICE_PRECISION / p.security_liquidity) % 2 ^ 64

/-- `Pool::calculate_swap_output`.  `fee = amtIn * feeBps / 10000` in `u128`;
`input_with_fee = input_amount as u128 - fee` is an UNCHECKED `u128`
subtraction, which aborts when `fee > input_amount` (possible only for
`fee_bps > 10000`); the quotient fits `u64` whenever the computation gets
that far, so the `as u64` casts are exact there. -/
def calculate_swap_output (p : Pool) (input_amount : Nat)
    (is_security_input : Bool) (fee_bps : Nat) : RResult (Option (Nat × Nat)) :=
  let input_reserve := if is_security_input then p.security_liquidity else p.quote_liquidity
  let output_reserve := if is_security_input then p.quote_liquidity else p.security_liquidity
  if input_reserve = 0 ∨ output_reserve = 0 then .ok none
  else
    let fee := input_amount * fee_bps / 10000
    if input_amount < fee then .panic
    else
      let input_with_fee := input_amount - fee
      let numerator := input_with_fee * output_reserve
      let denominator := input_reserve + input_with_fee
      let output := (numerator / denominator) % 2 ^ 64
      let fee_amount := fee % 2 ^ 64
      .ok (some (output, fee_amount))

/-- `Pool::calculate_lp_tokens`.  The source computes the first-deposit
branch as `((security_amount as u128 * quote_amount as u128) as f64).sqrt()
as u64`, modelled exactly: round-to-nearest-even conversion of the `u128`
product (`f64_of_u128`), correctly rounded square root truncated toward
zero (`f64_sqrt_trunc`), and Rust's saturating float-to-int cast
(`min · u64Max`).  The proportional branch divides by the current reserves,
aborting when a reserve is zero while `lp_supply` is not. -/
def calculate_lp_tokens (p : Pool) (security_amount quote_amount : Nat) :
    RResult (Option Nat) :=
  if p.lp_supply = 0 then
    .ok (some (min
      (f64_sqrt_trunc (f64_of_u128 (security_amount * quote_amount)))
      u64Max))
  else if p.security_liquidity = 0 ∨ p.quote_liquidity = 0 then .panic
  else
    let security_ratio := security_amount * p.lp_supply / p.security_liquidity
    let quote_ratio := quote_amount * p.lp_supply / p.quote_liquidity
    .ok (some ((min security_ratio quote_ratio) % 2 ^ 64))

/-- The reserve / fee-accumulator update a successful `swap` instruction
performs (lib.rs lines 296–304): input-side reserve `saturating_add` the
full `amount_in`, output-side reserve `saturating_sub` the output, the
input-side fee accumulator `saturating_add` the fee.  Returns the updated
pool together with `(amount_out, fee)`. -/
def swap_update (p : Pool) (amount_in : Nat) (is_security_input : Bool)
    (fee_bps : Nat) : RResult (Option (Pool × Nat × Nat)) :=
  match p.calculate_swap_output amount_in is_security_input fee_bps with
  | .panic => .panic
  | .ok none => .ok none
  | .ok (some (amount_out, fee)) =>
    if is_security_input then
      .ok (some ({ p with
        security_liquidity := satAdd64 p.security_liquidity amount_in,
        quote_liquidity := p.quote_liquidity - amount_out,
        accumulated_fees_security := satAdd64 p.accumulated_fees_security fee },
        amount_out, fee))
    else
      .ok (some ({ p with
        quote_liquidity := satAdd64 p.quote_liquidity amount_in,
        security_liquidity := p.security_liquidity - amount_out,
        accumulated_fees_quote := satAdd64 p.accumulated_fees_quote fee },
        amount_out, fee))

/-- The reserve / LP-supply / `k_last` update a successful `add_liquidity`
instruction performs (lib.rs lines 196–200): both reserves and the LP supply
grow by `saturating_add`, then `k_last` is recomputed as the `u128` product
of the new reserves. -/
def deposit_update (p : Pool) (security_amount quote_amount lp_tokens : Nat) :
    Pool :=
  let p1 := { p with
    security_liquidity := satAdd64 p.security_liquidity security_amount,
    quote_liquidity := satAdd64 p.quote_liquidity quote_amount,
    lp_supply := satAdd64 p.lp_supply lp_tokens }
  { p1 with k_last := p1.security_liquidity * p1.quote_liquidity }

/-- `Pool::calculate_price_impact`.  The effective-price divisions
`output * 1e6 / input_amount` (security input) and
`input_amount * 1e6 / output` (quote input) are `u128` divisions that abort
when the divisor is zero. -/
def calculate_price_impact (p : Pool) (input_amount : Nat)
    (is_security_input : Bool) : RResult Nat :=
  let current_price := p.get_spot_price
  if current_price = 0 then .ok 0
  else
    match p.calculate_swap_output input_amount is_security_input 0 with
    | .panic => .panic
    | .ok none => .ok 10000
    | .ok (some (output, _)) =>
      let effRes : RResult Nat :=
        if is_security_input then
          if input_amount = 0 then .panic
          else .ok ((output * PRICE_PRECISION / input_amount) % 2 ^ 64)
        else
          if output = 0 then .panic
          else .ok ((input_amount * PRICE_PRECISION / output) % 2 ^ 64)
      match effRes with
      | .panic => .panic
      | .ok effective_price =>
        if current_price < effective_price then
          .ok (((effective_price - current_price) * 10000 / current_price) % 2 ^ 64)
        else
          .ok (((current_price - effective_price) * 10000 / current_price) % 2 ^ 64)

end Pool

/-- Sign-extending Rust cast `i64 as u128` (two's complement wrap). -/
def u128_of_i64 (x : Int) : Nat := (x % (2 ^ 128 : Int)).toNat

/-- `Pool::update_twap`: `time_elapsed = current_time - twap_last_update`
(`i64` subtraction, abort on overflow); no-op when `time_elapsed ≤ 0` or the
security reserve is zero; otherwise the cumulative price integral grows by
`spot_price * elapsed` (checked `u128` addition) and the TWAP is the integral
divided by `(current_time - created_at) as u128` (abort on `i64` overflow or
a zero divisor), truncated `as u64`. -/
def Pool.update_twap (p : Pool) (current_time : Int) : RResult Pool :=
  match i64sub current_time p.twap_last_update with
  | .panic => .panic
  | .ok time_elapsed =>
    if time_elapsed ≤ 0 ∨ p.security_liquidity = 0 then .ok p
    else
      let current_price := p.get_spot_price
      let cum := p.cumulative_price + current_price * time_elapsed.toNat
      if u128Max < cum then .panic
      else
        match i64sub current_time p.created_at with
        | .panic => .panic
        | .ok d =>
          let denom := u128_of_i64 d
          if denom = 0 then .panic
          else .ok { p with cumulative_price := cum,
                            twap := (cum / denom) % 2 ^ 64,
                            twap_last_update := current_time }

/-- `MarketStatus` (market.rs). -/
inductive MarketStatus where
  | Active | Paused | Settling | Closed
deriving DecidableEq, Repr

/-- State of `Market` (market.rs) restricted to the fields the arithmetic
core reads or writes. -/
structure Market where
  status : MarketStatus
  trading_fee_bps : Nat
  protocol_fee_bps : Nat
  min_trade_size : Nat
  max_trade_size : Nat
  total_volume : Nat
  total_fees : Nat
  volume_24h : Nat
  volume_24h_reset : Int
  is_active : Bool
deriving DecidableEq, Repr

namespace Market

/-- `Market::is_trading`: active flag AND status `Active`. -/
def is_trading (m : Market) : Bool :=
  m.is_active && (m.status == MarketStatus.Active)

/-- `Market::update_volume`: all-time volume `saturating_add`; the 24h
window resets to `amount` when a day has elapsed since the last reset,
else accumulates with `saturating_add`. -/
def update_volume (m : Market) (amount : Nat) (current_time : Int) :
    RResult Market :=
  let tv := satAdd64 m.total_volume amount
  match i64sub current_time m.volume_24h_reset with
  | .panic => .panic
  | .ok d =>
    if 86400 ≤ d then
      .ok { m with total_volume := tv, volume_24h := amount,
                   volume_24h_reset := current_time }
    else
      .ok { m with total_volume := tv,
                   volume_24h := satAdd64 m.volume_24h amount }

end Market

/-- `Side` (position.rs). -/
inductive Side where
  | Long | Short
deriving DecidableEq, Repr

/-- State of `Position` (position.rs) restricted to the arithmetic fields. -/
structure Position where
  side : Side
  size : Nat
  entry_price : Nat
  leverage : Nat
  collateral : Nat
  unrealized_pnl : Int
  accumulated_funding : Int
  last_funding_update : Int
  liquidation_price : Nat
  take_profit : Nat
  stop_loss : Nat
  is_open : Bool
  created_at : Int
  updated_at : Int
deriving DecidableEq, Repr

namespace Position

/-- `Position::MAINTENANCE_MARGIN_BPS`. -/
def MAINTENANCE_MARGIN_BPS : Nat := 500

/-- `Position::calculate_liquidation_price`.
`max_loss = collateral as u128 - maintenance_margin` is an UNCHECKED `u128`
subtraction that aborts when the collateral is below the maintenance margin;
`price_move = max_loss * 1e6 / size` aborts when `size = 0`; the result is
`entry_price.saturating_sub(price_move as u64)` (Long) or
`saturating_add` (Short), the cast truncating `price_move` mod `2^64`. -/
def calculate_liquidation_price (p : Position) : RResult Nat :=
  let maintenance_margin := p.size * MAINTENANCE_MARGIN_BPS / 10000
  if p.collateral < maintenance_margin then .panic
  else
    let max_loss := p.collateral - maintenance_margin
    if p.size = 0 then .panic
    else
      let price_move := max_loss * 1000000 / p.size
      match p.side with
      | .Long => .ok (p.entry_price - price_move % 2 ^ 64)
      | .Short => .ok (min (p.entry_price + price_move % 2 ^ 64) u64Max)

/-- `Position::apply_funding`: `time_elapsed = current_time -
last_funding_update` (`i64`, abort on overflow); no-op when `≤ 0`; otherwise
`funding = size * rate * elapsed / (8*3600)` in `i128` (the three-way
product is overflow-checked; the division is Rust's truncating signed
division) and `accumulated_funding` moves by `-funding` (Long) or
`+funding` (Short) with a checked `i128` addition. -/
def apply_funding (p : Position) (funding_rate : Int) (current_time : Int) :
    RResult Position :=
  let time_elapsed := current_time - p.last_funding_update
  if i64Min ≤ time_elapsed ∧ time_elapsed ≤ i64Max then
    if time_elapsed ≤ 0 then .ok p
    else
      let prod := (p.size : Int) * funding_rate * time_elapsed
      if i128Min ≤ prod ∧ prod ≤ i128Max then
        let funding := Int.tdiv prod (8 * 3600)
        let delta := match p.side with
          | .Long => -funding
          | .Short => funding
        let acc := p.accumulated_funding + delta
        if i128Min ≤ acc ∧ acc ≤ i128Max then
          .ok { p with accumulated_funding := acc,
                       last_funding_update := current_time }
        else .panic
      else .panic
  else .panic

end Position

/-- `OrderStatus` (order.rs). -/
inductive OrderStatus where
  | Open | PartiallyFilled | Filled | Cancelled | Expired
deriving DecidableEq, Repr

/-- State of `Order` (order.rs) restricted to the fields `fill` touches. -/
structure Order where
  price : Nat
  original_size : Nat
  remaining_size : Nat
  filled_size : Nat
  avg_fill_price : Nat
  status : OrderStatus
deriving DecidableEq, Repr

namespace Order

/-- `Order::fill`: `total_value = avg_fill_price * filled_size +
price * amount` in `u128` (the addition is overflow-checked); the filled /
remaining counters move by saturating arithmetic; the average is refreshed
only when the new filled size is positive; the status becomes `Filled`
when nothing remains, else `PartiallyFilled`. -/
def fill (o : Order) (amount price : Nat) : RResult Order :=
  let total_value := o.avg_fill_price * o.filled_size + price * amount
  if u128Max < total_value then .panic
  else
    let filled := satAdd64 o.filled_size amount
    let remaining := o.remaining_size - amount
    let avg := if 0 < filled then (total_value / filled) % 2 ^ 64
               else o.avg_fill_price
    let st := if remaining = 0 then OrderStatus.Filled
              else OrderStatus.PartiallyFilled
    .ok { o with filled_size := filled, remaining_size := remaining,
                 avg_fill_price := avg, status := st }

end Order

/-- `SecuritiesError` (lib.rs), the rejection reasons the handlers below
return. -/
inductive SecuritiesError where
  | MarketNotActive | InsufficientLiquidity | SlippageExceeded
  | InvalidAmount | InsufficientCollateral | InvalidLeverage | MathOverflow
deriving DecidableEq, Repr

/-- The `add_liquidity` instruction handler (lib.rs lines 135–213) at the
level of its state arithmetic: the token transfers and LP mint are external
custody moves whose amounts are exactly the ones computed here.  The
`market` account is passed but — unlike `swap` / `open_position` — never
gated on: only `pool.is_active` is checked. -/
def add_liquidity (m : Market) (p : Pool)
    (security_amount quote_amount min_lp_tokens : Nat) (now : Int) :
    RResult (Except SecuritiesError (Pool × Nat)) :=
  let _ := m
  if ¬ p.is_active then .ok (.error .MarketNotActive)
  else if ¬ (0 < security_amount ∧ 0 < quote_amount) then
    .ok (.error .InvalidAmount)
  else
    match p.calculate_lp_tokens security_amount quote_amount with
    | .panic => .panic
    | .ok none => .ok (.error .MathOverflow)
    | .ok (some lp_tokens) =>
      if lp_tokens < min_lp_tokens then .ok (.error .SlippageExceeded)
      else
        match (p.deposit_update security_amount quote_amount lp_tokens).update_twap now with
        | .panic => .panic
        | .ok p3 => .ok (.ok (p3, lp_tokens))

/-- The `swap` instruction handler (lib.rs lines 216–326): trading gate,
amount guards, output computation, slippage guard, then the reserve / TWAP /
volume updates.  The slippage check precedes any state write in the source;
in this pure model the updated pool from `swap_update` is simply discarded
on the slippage-failure branch, which is the same function. -/
def swap (m : Market) (p : Pool) (amount_in min_amount_out : Nat)
    (is_security_input : Bool) (now : Int) :
    RResult (Except SecuritiesError (Market × Pool × Nat × Nat)) :=
  if ¬ m.is_trading then .ok (.error .MarketNotActive)
  else if amount_in = 0 then .ok (.error .InvalidAmount)
  else if amount_in < m.min_trade_size then .ok (.error .InvalidAmount)
  else if 0 < m.max_trade_size ∧ m.max_trade_size < amount_in then
    .ok (.error .InvalidAmount)
  else
    match p.swap_update amount_in is_security_input m.trading_fee_bps with
    | .panic => .panic
    | .ok none => .ok (.error .InsufficientLiquidity)
    | .ok (some (p1, amount_out, fee)) =>
      if amount_out < min_amount_out then .ok (.error .SlippageExceeded)
      else
        match p1.update_twap now with
        | .panic => .panic
        | .ok p2 =>
          let volume := if is_security_input then amount_out else amount_in
          match m.update_volume volume now with
          | .panic => .panic
          | .ok m1 =>
            .ok (.ok ({ m1 with total_fees := satAdd64 m1.total_fees fee },
                      p2, amount_out, fee))

/-- Parameters of `open_position` (lib.rs), minus the position-type tag,
which no arithmetic reads. -/
structure OpenPositionParams where
  side : Side
  size : Nat
  entry_price : Nat
  leverage : Nat
  collateral : Nat
  take_profit : Nat
  stop_loss : Nat
deriving DecidableEq, Repr

/-- The `open_position` instruction handler (lib.rs lines 329–388):
trading gate, leverage range `[1, 100]`, `required_collateral =
size / leverage`, collateral guard, then the position is initialised and
its liquidation price computed — a step that can abort
(`calculate_liquidation_price`'s unchecked subtraction), in which case the
whole instruction aborts. -/
def open_position (m : Market) (params : OpenPositionParams) (now : Int) :
    RResult (Except SecuritiesError Position) :=
  if ¬ m.is_trading then .ok (.error .MarketNotActive)
  else if ¬ (1 ≤ params.leverage ∧ params.leverage ≤ 100) then
    .ok (.error .InvalidLeverage)
  else
    let required_collateral := params.size / params.leverage
    if params.collateral < required_collateral then
      .ok (.error .InsufficientCollateral)
    else
      let pos0 : Position := {
        side := params.side, size := params.size,
        entry_price := params.entry_price, leverage := params.leverage,
        collateral := params.collateral, unrealized_pnl := 0,
        accumulated_funding := 0, last_funding_update := now,
        liquidation_price := 0, take_profit := params.take_profit,
        stop_loss := params.stop_loss, is_open := true,
        created_at := now, updated_at := now }
      match pos0.calculate_liquidation_price with
      | .panic => .panic
      | .ok lp => .ok (.ok { pos0 with liquidation_price := lp })

/-! ## Concrete states used by the scenario claims -/

/-- The spec's Scenario-1 pool: reserves (1,000,000 security,
2,000,000,000 quote). -/
def scenario1Pool : Pool :=
  { security_liquidity := 1000000, quote_liquidity := 2000000000,
    lp_supply := 2000000, accumulated_fees_security := 0,
    accumulated_fees_quote := 0, twap := 0, twap_last_update := 0,
    cumulative_price := 0, k_last := 2000000000000000, is_active := true,
    created_at := 0 }

/-- A fresh pool before the first deposit (`lp_supply = 0`). -/
def emptyPool : Pool :=
  { security_liquidity := 0, quote_liquidity := 0, lp_supply := 0,
    accumulated_fees_security := 0, accumulated_fees_quote := 0, twap := 0,
    twap_last_update := 0, cumulative_price := 0, k_last := 0,
    is_active := true, created_at := 0 }

/-- A pool whose security reserve sits at `u64::MAX`, so the input-side
`saturating_add` of a swap saturates. -/
def brinkPool : Pool :=
  { security_liquidity := u64Max, quote_liquidity := 2, lp_supply := 1,
    accumulated_fees_security := 0, accumulated_fees_quote := 0, twap := 0,
    twap_last_update := 0, cumulative_price := 0, k_last := 0,
    is_active := true, created_at := 0 }

/-- A small live pool (used with a paused market). -/
def liveSmallPool : Pool :=
  { security_liquidity := 1000, quote_liquidity := 1000, lp_supply := 100,
    accumulated_fees_security := 0, accumulated_fees_quote := 0, twap := 0,
    twap_last_update := 0, cumulative_price := 0, k_last := 1000000,
    is_active := true, created_at := 0 }

/-- A pool with deep quote-side reserves relative to the security side. -/
def thinPool : Pool :=
  { security_liquidity := 1000, quote_liquidity := 2000, lp_supply := 100,
    accumulated_fees_security := 0, accumulated_fees_quote := 0, twap := 0,
    twap_last_update := 0, cumulative_price := 0, k_last := 2000000,
    is_active := true, created_at := 0 }

/-- The spec's Scenario-3 position: Long, size 100,000, leverage 10,
collateral 10,000, entry price 1,000,000. -/
def scenario3Pos : Position :=
  { side := .Long, size := 100000, entry_price := 1000000, leverage := 10,
    collateral := 10000, unrealized_pnl := 0, accumulated_funding := 0,
    last_funding_update := 0, liquidation_price := 0, take_profit := 0,
    stop_loss := 0, is_open := true, created_at := 0, updated_at := 0 }

/-- A Long position whose collateral (exactly `size / leverage` at
leverage 25) sits below the 5% maintenance margin. -/
def underMarginPos : Position :=
  { side := .Long, size := 100000, entry_price := 1000000, leverage := 25,
    collateral := 4000, unrealized_pnl := 0, accumulated_funding := 0,
    last_funding_update := 0, liquidation_price := 0, take_profit := 0,
    stop_loss := 0, is_open := true, created_at := 0, updated_at := 0 }

/-- A position for which one funding period per second accrues exactly
half a unit per second: `size * rate * 1 / 28800 = 14400 / 28800`. -/
def c6p : Position :=
  { side := .Long, size := 14400, entry_price := 1000000, leverage := 1,
    collateral := 14400, unrealized_pnl := 0, accumulated_funding := 0,
    last_funding_update := 0, liquidation_price := 0, take_profit := 0,
    stop_loss := 0, is_open := true, created_at := 0, updated_at := 0 }

/-- Result of `c6p.apply_funding 1 1`. -/
def c6q1 : Position := { c6p with last_funding_update := 1 }

/-- Result of `c6q1.apply_funding 1 2`. -/
def c6q2 : Position := { c6p with last_funding_update := 2 }

/-- Result of the single call `c6p.apply_funding 1 2`. -/
def c6w : Position :=
  { c6p with accumulated_funding := -1, last_funding_update := 2 }

/-- An active market with a 0.3% trading fee and no trade-size bounds. -/
def activeMarket : Market :=
  { status := .Active, trading_fee_bps := 30, protocol_fee_bps := 5,
    min_trade_size := 0, max_trade_size := 0, total_volume := 0,
    total_fees := 0, volume_24h := 0, volume_24h_reset := 0,
    is_active := true }

/-- The same market mid-session after `pause`: status `Paused`, activity
flag still set. -/
def pausedMarket : Market := { activeMarket with status := .Paused }

/-- A partially filled order: 40 of 100 filled at average price 10. -/
def halfFilledOrder : Order :=
  { price := 20, original_size := 100, remaining_size := 60,
    filled_size := 40, avg_fill_price := 10, status := .PartiallyFilled }

/-! ## Claims -/

/-- Claim C3 (corrected): on Scenario 1 — reserves (1,000,000;
2,000,000,000), fee 30 bps, 10,000 security in — `calculate_swap_output`
returns fee 30 and output `floor(9970 * 2000000000 / 1009970)`, but that
floor is 19,743,160, not the claimed 19,742,131. -/
theorem C3_counterexample :
    Pool.calculate_swap_output scenario1Pool 10000 true 30 =
      .ok (some (9970 * 2000000000 / (1000000 + 9970), 30)) ∧
    9970 * 2000000000 / (1000000 + 9970) = 19743160 ∧
    (19743160 : Nat) ≠ 19742131 :=
  ⟨by decide, by decide, by decide⟩

/-- Claim C3 (amended): the Scenario-1 swap yields fee 30 and output
19,743,160 = floor(9,970 × 2,000,000,000 / 1,009,970), and the reserve
update leaves the pool at (1,010,000; 2,000,000,000 − 19,743,160). -/
theorem C3_swap_scenario1 :
    Pool.swap_update scenario1Pool 10000 true 30 =
      .ok (some ({ scenario1Pool with
          security_liquidity := 1010000,
          quote_liquidity := 1980256840,
          accumulated_fees_security := 30 }, 19743160, 30)) ∧
    (1980256840 : Nat) = 2000000000 - 19743160 :=
  ⟨by decide, by decide⟩

/-- Evaluation of the modelled f64 square root at the Scenario-2 product
`4 × 10¹⁵`: the product is below `2 ^ 53`, so the conversion is exact; its
integer square root is 63,245,553 with `⌊log2⌋ = 25`, and the round-up test
fails (the real root `63,245,553.20…` is nowhere near the next double), so
the correctly rounded root truncates to 63,245,553. -/
theorem f64_sqrt_scenario2 :
    f64_sqrt_trunc (f64_of_u128 (1000000 * 4000000000)) = 63245553 := by
  have hconv : f64_of_u128 (1000000 * 4000000000) = 4000000000000000 := by
    unfold f64_of_u128
    norm_num
  have hs : Nat.sqrt 4000000000000000 = 63245553 :=
    (Nat.eq_sqrt.mpr ⟨by norm_num, by norm_num⟩).symm
  have hE : Nat.log2 63245553 = 25 := by
    have h1 : 25 ≤ Nat.log2 63245553 :=
      (Nat.le_log2 (by norm_num)).mpr (by norm_num)
    have h2 : Nat.log2 63245553 < 26 :=
      (Nat.log2_lt (by norm_num)).mpr (by norm_num)
    omega
  rw [hconv]
  simp only [f64_sqrt_trunc]
  rw [if_neg (by norm_num), hs, hE]
  norm_num

/-- Fidelity check of the f64 model at a near-square product: at
`4,899,999,999,999,999 = 70,000,000² - 1` (below `2 ^ 53`, conversion
exact) the real root `70,000,000 - 7.14…e-9` lies within half an ulp
(`2^-27 ≈ 7.45e-9`) of 70,000,000, so the correctly rounded double is
exactly `70,000,000.0` and the code mints one MORE than the integer square
root 69,999,999 — the model reproduces this overshoot rather than
hard-coding `Nat.sqrt`. -/
theorem f64_sqrt_near_square :
    f64_sqrt_trunc (f64_of_u128 4899999999999999) = 70000000 ∧
    Nat.sqrt 4899999999999999 = 69999999 := by
  have hs : Nat.sqrt 4899999999999999 = 69999999 :=
    (Nat.eq_sqrt.mpr ⟨by norm_num, by norm_num⟩).symm
  refine ⟨?_, hs⟩
  have hconv : f64_of_u128 4899999999999999 = 4899999999999999 := by
    unfold f64_of_u128; norm_num
  have hE : Nat.log2 69999999 = 26 := by
    have h1 : 26 ≤ Nat.log2 69999999 :=
      (Nat.le_log2 (by norm_num)).mpr (by norm_num)
    have h2 : Nat.log2 69999999 < 27 :=
      (Nat.log2_lt (by norm_num)).mpr (by norm_num)
    omega
  rw [hconv]
  simp only [f64_sqrt_trunc]
  rw [if_neg (by norm_num), hs, hE]
  norm_num

/-- Claim C4 (counterexample): the first deposit (1,000,000;
4,000,000,000) on an empty pool mints 63,245,553 LP tokens — the truncated
f64 square root of 4 × 10¹⁵, which at this product equals
`floor(sqrt(4e15))` — not the claimed 2,000,000. -/
theorem C4_counterexample :
    Pool.calculate_lp_tokens emptyPool 1000000 4000000000 =
      .ok (some 63245553) ∧
    Nat.sqrt (1000000 * 4000000000) = 63245553 ∧
    (63245553 : Nat) ≠ 2000000 := by
  refine ⟨?_, ?_, by decide⟩
  · unfold Pool.calculate_lp_tokens
    rw [if_pos (show emptyPool.lp_supply = 0 from rfl), f64_sqrt_scenario2]
    norm_num [u64Max]
  · exact (Nat.eq_sqrt.mpr ⟨by norm_num, by norm_num⟩).symm

/-- Claim C4 (amended): on an empty pool (`lp_supply = 0`) the first
deposit mints the saturated u64 truncation of the f64 square root of
`secAmt × quoteAmt`; for products below `2 ^ 53` this is
`floor(sqrt(secAmt·quoteAmt))` or `floor(sqrt(secAmt·quoteAmt)) + 1` (the
f64 rounding can overshoot the integer root by one just below a perfect
square); in particular `calculate_lp_tokens (1,000,000, 4,000,000,000)`
returns `floor(sqrt(4e15)) = 63,245,553` exactly. -/
theorem C4_first_deposit (p : Pool) (security_amount quote_amount : Nat)
    (h0 : p.lp_supply = 0) :
    p.calculate_lp_tokens security_amount quote_amount =
      .ok (some (min (f64_sqrt_trunc
        (f64_of_u128 (security_amount * quote_amount))) u64Max)) ∧
    (security_amount * quote_amount < 2 ^ 53 →
      p.calculate_lp_tokens security_amount quote_amount =
          .ok (some (Nat.sqrt (security_amount * quote_amount))) ∨
        p.calculate_lp_tokens security_amount quote_amount =
          .ok (some (Nat.sqrt (security_amount * quote_amount) + 1))) ∧
    (security_amount = 1000000 → quote_amount = 4000000000 →
      p.calculate_lp_tokens security_amount quote_amount =
        .ok (some 63245553)) := by
  have hmain : p.calculate_lp_tokens security_amount quote_amount =
      .ok (some (min (f64_sqrt_trunc
        (f64_of_u128 (security_amount * quote_amount))) u64Max)) := by
    unfold Pool.calculate_lp_tokens
    rw [if_pos h0]
  refine ⟨hmain, fun hsmall => ?_, fun hse hq => ?_⟩
  · set x := security_amount * quote_amount with hx
    have hconv : f64_of_u128 x = x := by
      unfold f64_of_u128; rw [if_pos hsmall]
    rcases Nat.eq_zero_or_pos x with hx0 | hxpos
    · left
      rw [hmain, hconv, hx0]
      norm_num [f64_sqrt_trunc, Nat.sqrt_zero, u64Max]
    · have hslt : Nat.sqrt x < 2 ^ 27 := by
        rw [Nat.sqrt_lt']
        calc x < 2 ^ 53 := hsmall
          _ < (2 ^ 27) ^ 2 := by norm_num
      have hsne : Nat.sqrt x ≠ 0 := by
        intro h
        rw [Nat.sqrt_eq_zero] at h
        omega
      have hE : Nat.log2 (Nat.sqrt x) ≤ 52 := by
        have h53 := (Nat.log2_lt hsne).mpr
          (lt_trans hslt (by norm_num : (2 : Nat) ^ 27 < 2 ^ 53))
        omega
      have hres : f64_sqrt_trunc x = Nat.sqrt x ∨
          f64_sqrt_trunc x = Nat.sqrt x + 1 := by
        simp only [f64_sqrt_trunc]
        rw [if_neg (by omega), if_pos hE]
        split_ifs with h
        · right; rfl
        · left; rfl
      have h27 : (2 : Nat) ^ 27 ≤ u64Max := by norm_num [u64Max]
      have hle : f64_sqrt_trunc x ≤ u64Max := by
        rcases hres with h | h <;> rw [h] <;> omega
      rcases hres with h | h
      · left; rw [hmain, hconv, min_eq_left hle, h]
      · right; rw [hmain, hconv, min_eq_left hle, h]
  · subst hse; subst hq
    rw [hmain, f64_sqrt_scenario2]
    norm_num [u64Max]

/-- Witness for C4: the amended claim applied to the empty pool and the
Scenario-2 deposit. -/
theorem C4_witness :
    Pool.calculate_lp_tokens emptyPool 1000000 4000000000 =
      .ok (some 63245553) :=
  (C4_first_deposit emptyPool 1000000 4000000000 rfl).2.2 rfl rfl

/-- Claim C2 (code bug): `calculate_swap_output` does NOT fail closed.
At `fee_bps = 10001 > 10000` with input 10,000 the computed fee 10,001
exceeds the input and the unchecked `u128` subtraction
`input_amount as u128 - fee` underflows: the program aborts (or wraps,
without overflow checks) instead of returning a rejection. -/
theorem C2_swap_unchecked_subtraction :
    Pool.calculate_swap_output scenario1Pool 10000 true 10001 = .panic ∧
    10000 * 10001 / 10000 > 10000 :=
  ⟨by decide, by decide⟩

/-- Claim C5 (counterexample): `calculate_liquidation_price` does not
return a price for every position: with collateral 4,000 below the
maintenance margin 5,000 (size 100,000, a position `open_position` accepts
at leverage 25) the unchecked `u128` subtraction underflows and the
computation aborts. -/
theorem C5_counterexample :
    Position.calculate_liquidation_price underMarginPos = .panic ∧
    underMarginPos.collateral <
      underMarginPos.size * Position.MAINTENANCE_MARGIN_BPS / 10000 :=
  ⟨by decide, by decide⟩

/-- Claim C5 (amended): for every position with positive size whose
collateral covers the maintenance margin `floor(size * 500 / 10000)`,
`calculate_liquidation_price` returns `entry − move` (Long, saturating at 0)
or `entry + move` (Short, saturating at `u64::MAX`) with
`move = floor((collateral − maintMargin) * 1e6 / size)` truncated `as u64`;
in particular size 100,000 with collateral 10,000 gives `entry − 50,000`. -/
theorem C5_liquidation_price (p : Position)
    (hsize : 0 < p.size)
    (hmaint : p.size * Position.MAINTENANCE_MARGIN_BPS / 10000 ≤ p.collateral) :
    (p.side = .Long →
      p.calculate_liquidation_price =
        .ok (p.entry_price -
          ((p.collateral - p.size * Position.MAINTENANCE_MARGIN_BPS / 10000) *
            1000000 / p.size) % 2 ^ 64)) ∧
    (p.side = .Short →
      p.calculate_liquidation_price =
        .ok (min (p.entry_price +
          ((p.collateral - p.size * Position.MAINTENANCE_MARGIN_BPS / 10000) *
            1000000 / p.size) % 2 ^ 64) u64Max)) ∧
    (p.side = .Long → p.size = 100000 → p.collateral = 10000 →
      p.calculate_liquidation_price = .ok (p.entry_price - 50000)) := by
  unfold Position.calculate_liquidation_price
  rw [if_neg (not_lt.mpr hmaint), if_neg (Nat.pos_iff_ne_zero.mp hsize)]
  refine ⟨fun h => ?_, fun h => ?_, fun h h1 h2 => ?_⟩
  · rw [h]
  · rw [h]
  · rw [h, h1, h2]
    norm_num [Position.MAINTENANCE_MARGIN_BPS]

/-- Witness for C5: the amended claim at the Scenario-3 position
(entry 1,000,000 → liquidation price 950,000). -/
theorem C5_witness :
    Position.calculate_liquidation_price scenario3Pos =
      .ok (1000000 - 50000) :=
  (C5_liquidation_price scenario3Pos (by decide) (by decide)).2.2 rfl rfl rfl

/-- Claim C9: whenever the posted collateral is below the 5% maintenance
margin — which `open_position` accepts, e.g. leverage above 20 posting
exactly `size / leverage` — `calculate_liquidation_price`'s unchecked
subtraction underflows, so the whole `open_position` instruction aborts
instead of storing a (saturated) price. -/
theorem C9_undermargined_open_aborts (m : Market)
    (params : OpenPositionParams) (now : Int)
    (htr : m.is_trading = true)
    (hlev : 1 ≤ params.leverage ∧ params.leverage ≤ 100)
    (hcol : params.size / params.leverage ≤ params.collateral)
    (hmaint : params.collateral <
      params.size * Position.MAINTENANCE_MARGIN_BPS / 10000) :
    open_position m params now = .panic ∧
    (∀ p : Position, p.size = params.size →
      p.collateral = params.collateral →
      p.calculate_liquidation_price = .panic) := by
  have hliq : ∀ p : Position, p.size = params.size →
      p.collateral = params.collateral →
      p.calculate_liquidation_price = .panic := by
    intro p hs hc
    unfold Position.calculate_liquidation_price
    rw [hs, hc, if_pos hmaint]
  constructor
  · unfold open_position
    rw [if_neg (not_not_intro htr), if_neg (not_not_intro hlev),
      if_neg (not_lt.mpr hcol)]
    simp only [hliq]
  · exact hliq

/-- Witness for C9: on an active market, opening a Long of size 100,000 at
leverage 25 with exactly the required collateral 4,000 aborts. -/
theorem C9_witness :
    open_position activeMarket
      { side := .Long, size := 100000, entry_price := 1000000,
        leverage := 25, collateral := 4000, take_profit := 0,
        stop_loss := 0 } 0 = .panic :=
  (C9_undermargined_open_aborts activeMarket _ 0 (by decide) (by decide)
    (by decide) (by decide)).1

/-- Claim C10: `calculate_price_impact` is not total on non-empty pools:
when the zero-fee output for a quote-side input is 0 (tiny input against
deep reserves) the effective-price division divides by zero and aborts,
and a security-side call with `input_amount = 0` aborts likewise, instead
of returning the 10000 sentinel or any value. -/
theorem C10_price_impact_div_by_zero (p : Pool) (input_amount : Nat)
    (hspot : p.get_spot_price ≠ 0)
    (hzero : p.calculate_swap_output input_amount false 0 = .ok (some (0, 0))) :
    p.calculate_price_impact input_amount false = .panic ∧
    p.calculate_price_impact 0 true = .panic := by
  have hsec : p.security_liquidity ≠ 0 := by
    intro h; apply hspot; unfold Pool.get_spot_price; rw [if_pos h]
  have hquote : p.quote_liquidity ≠ 0 := by
    intro h; apply hspot; unfold Pool.get_spot_price
    rw [if_neg hsec, h]
    simp
  constructor
  · unfold Pool.calculate_price_impact
    rw [if_neg hspot, hzero]
    rfl
  · have h2 : p.calculate_swap_output 0 true 0 = .ok (some (0, 0)) := by
      unfold Pool.calculate_swap_output
      rw [if_neg (by push_neg; exact ⟨hsec, hquote⟩)]
      norm_num
    unfold Pool.calculate_price_impact
    rw [if_neg hspot, h2]
    rfl

/-- Witness for C10: on reserves (1,000; 2,000) a 1-unit quote-side input
and a 0-unit security-side input both abort `calculate_price_impact`. -/
theorem C10_witness :
    Pool.calculate_price_impact thinPool 1 false = .panic ∧
    Pool.calculate_price_impact thinPool 0 true = .panic :=
  C10_price_impact_div_by_zero thinPool 1 (by decide) (by decide)

/-- Claim C7: when the market is paused (`is_trading()` false) while its
pool is still active, `swap` and `open_position` reject with
`MarketNotActive` before touching any state, while `add_liquidity` with
valid positive amounts still succeeds. -/
theorem C7_pause_asymmetry (m : Market) (p : Pool) (now : Int)
    (hpaused : m.status = .Paused) (hpool : p.is_active = true) :
    (∀ amount_in min_amount_out is_security_input,
      swap m p amount_in min_amount_out is_security_input now =
        .ok (.error .MarketNotActive)) ∧
    (∀ params, open_position m params now = .ok (.error .MarketNotActive)) ∧
    (∀ security_amount quote_amount min_lp_tokens lp p3,
      0 < security_amount → 0 < quote_amount →
      p.calculate_lp_tokens security_amount quote_amount = .ok (some lp) →
      min_lp_tokens ≤ lp →
      (p.deposit_update security_amount quote_amount lp).update_twap now =
        .ok p3 →
      add_liquidity m p security_amount quote_amount min_lp_tokens now =
        .ok (.ok (p3, lp))) := by
  have htrade : ¬ m.is_trading := by
    simp [Market.is_trading, hpaused]
  refine ⟨fun a b c => ?_, fun params => ?_,
    fun sa qa ml lp p3 hsa hqa hlp hml htw => ?_⟩
  · unfold swap; rw [if_pos htrade]
  · unfold open_position; rw [if_pos htrade]
  · unfold add_liquidity
    rw [if_neg (not_not_intro hpool), if_neg (not_not_intro ⟨hsa, hqa⟩)]
    simp only [hlp]
    rw [if_neg (not_lt.mpr hml)]
    simp only [htw]

/-- Witness for C7: on the paused market with the small live pool, a swap
and a position open reject with `MarketNotActive` while a (100, 100)
deposit succeeds and mints 10 LP tokens. -/
theorem C7_witness :
    swap pausedMarket liveSmallPool 10 0 true 0 =
      .ok (.error .MarketNotActive) ∧
    open_position pausedMarket
      { side := .Long, size := 1000, entry_price := 1000000, leverage := 10,
        collateral := 100, take_profit := 0, stop_loss := 0 } 0 =
      .ok (.error .MarketNotActive) ∧
    add_liquidity pausedMarket liveSmallPool 100 100 0 0 =
      .ok (.ok (liveSmallPool.deposit_update 100 100 10, 10)) := by
  have h := C7_pause_asymmetry pausedMarket liveSmallPool 0 rfl rfl
  exact ⟨h.1 10 0 true, h.2.1 _,
    h.2.2 100 100 0 10 _ (by decide) (by decide) (by decide) (by decide)
      (by decide)⟩

/-- Claim C8: if `filled + remaining = original` (with in-range `u64`
fields) and `amount ≤ remaining`, then `fill(amount, price)` succeeds,
preserves `filled + remaining = original`, sets the average fill price to
`(avgFill·filled + price·amount) / (filled + amount)` (when the new filled
size is positive), and sets the status to `Filled` exactly when the
remaining size reaches 0 and to `PartiallyFilled` otherwise. -/
theorem C8_fill_invariant (o : Order) (amount price : Nat)
    (hinv : o.filled_size + o.remaining_size = o.original_size)
    (hamt : amount ≤ o.remaining_size)
    (horig : o.original_size ≤ u64Max)
    (havg : o.avg_fill_price ≤ u64Max)
    (hprice : price ≤ u64Max) :
    ∃ o', o.fill amount price = .ok o' ∧
      o'.filled_size + o'.remaining_size = o.original_size ∧
      o'.filled_size = o.filled_size + amount ∧
      o'.remaining_size = o.remaining_size - amount ∧
      (0 < o.filled_size + amount →
        o'.avg_fill_price =
          (o.avg_fill_price * o.filled_size + price * amount) /
            (o.filled_size + amount)) ∧
      (o'.status = .Filled ↔ amount = o.remaining_size) ∧
      (o'.status = .PartiallyFilled ↔ amount < o.remaining_size) := by
  have hfa : o.filled_size + amount ≤ u64Max := by omega
  have htot : o.avg_fill_price * o.filled_size + price * amount ≤
      u64Max * (o.filled_size + amount) := by
    have h1 : o.avg_fill_price * o.filled_size ≤ u64Max * o.filled_size :=
      Nat.mul_le_mul_right _ havg
    have h2 : price * amount ≤ u64Max * amount :=
      Nat.mul_le_mul_right _ hprice
    calc o.avg_fill_price * o.filled_size + price * amount
        ≤ u64Max * o.filled_size + u64Max * amount := Nat.add_le_add h1 h2
      _ = u64Max * (o.filled_size + amount) := (Nat.mul_add _ _ _).symm
  have hnopanic :
      ¬ u128Max < o.avg_fill_price * o.filled_size + price * amount := by
    have hb : u64Max * (o.filled_size + amount) ≤ u64Max * u64Max :=
      Nat.mul_le_mul_left _ hfa
    have hc : u64Max * u64Max ≤ u128Max := by norm_num [u64Max, u128Max]
    omega
  have hsat : satAdd64 o.filled_size amount = o.filled_size + amount := by
    unfold satAdd64; omega
  unfold Order.fill
  rw [if_neg hnopanic, hsat]
  refine ⟨_, rfl, by dsimp only; omega, rfl, rfl, ?_, ?_, ?_⟩
  · intro hpos
    dsimp only
    rw [if_pos hpos]
    have hlt : (o.avg_fill_price * o.filled_size + price * amount) /
        (o.filled_size + amount) < 2 ^ 64 := by
      rw [Nat.div_lt_iff_lt_mul hpos]
      have h64 : u64Max < 2 ^ 64 := by norm_num [u64Max]
      calc o.avg_fill_price * o.filled_size + price * amount
          ≤ u64Max * (o.filled_size + amount) := htot
        _ < 2 ^ 64 * (o.filled_size + amount) :=
            (Nat.mul_lt_mul_right hpos).mpr h64
    exact Nat.mod_eq_of_lt hlt
  · dsimp only
    split_ifs with h <;> simp <;> omega
  · dsimp only
    split_ifs with h <;> simp <;> omega

/-- Witness for C8: filling the last 60 units of the half-filled order at
price 20 succeeds and preserves `filled + remaining = original = 100`. -/
theorem C8_witness :
    ∃ o', Order.fill halfFilledOrder 60 20 = .ok o' ∧
      o'.filled_size + o'.remaining_size = 100 ∧
      (o'.status = .Filled ↔ (60 : Nat) = 60) := by
  obtain ⟨o', h1, h2, -, -, -, h6, -⟩ :=
    C8_fill_invariant halfFilledOrder 60 20 (by decide) (by decide)
      (by decide) (by decide) (by decide)
  exact ⟨o', h1, h2, h6⟩

/-- Core constant-product fact: with positive input reserve and
`fee ≤ amtIn`, removing `floor(netIn * outR / (inR + netIn))` from the
output reserve while adding the full `amtIn` to the input reserve cannot
shrink the reserve product. -/
theorem swap_k_lemma (inR outR amtIn fee : Nat) (hin : 0 < inR)
    (hfee : fee ≤ amtIn) :
    inR * outR ≤
      (inR + amtIn) *
        (outR - (amtIn - fee) * outR / (inR + (amtIn - fee))) := by
  set netIn := amtIn - fee with hnet
  have hd0 : 0 < inR + netIn := by omega
  have hqd : netIn * outR / (inR + netIn) * (inR + netIn) ≤ netIn * outR :=
    Nat.div_mul_le_self _ _
  have hqle : netIn * outR / (inR + netIn) ≤ outR := by
    calc netIn * outR / (inR + netIn)
        ≤ (inR + netIn) * outR / (inR + netIn) :=
          Nat.div_le_div_right (Nat.mul_le_mul_right _ (by omega))
      _ = outR := Nat.mul_div_cancel_left _ hd0
  have hnle : netIn ≤ amtIn := by omega
  zify [hqle]
  zify at hqd hqle hnle
  nlinarith [hqd, mul_nonneg (sub_nonneg.mpr hnle) (sub_nonneg.mpr hqle)]

/-- Claim C1 (counterexample): the reserve product CAN shrink across a
successful swap.  With the security reserve already at `u64::MAX`, a
`u64::MAX` security input saturates the input-side `saturating_add` (the
reserve stays `u64::MAX`) while the output side still pays out 1 unit, so
`sec × quote` falls from `u64::MAX · 2` to `u64::MAX · 1`. -/
theorem C1_counterexample :
    Pool.swap_update brinkPool u64Max true 0 =
      .ok (some ({ brinkPool with quote_liquidity := 1 }, 1, 0)) ∧
    ({ brinkPool with quote_liquidity := 1 } : Pool).security_liquidity *
        ({ brinkPool with quote_liquidity := 1 } : Pool).quote_liquidity <
      brinkPool.security_liquidity * brinkPool.quote_liquidity :=
  ⟨by decide, by decide⟩

/-- Claim C1 (amended): for every pool with both reserves positive (and in
`u64` range) and every successful swap in either direction whose input-side
reserve update does not saturate (`inputReserve + amount_in ≤ u64::MAX`),
the product `security_liquidity × quote_liquidity` after the swap's reserve
update is at least the product before. -/
theorem C1_product_nondecreasing (p : Pool) (amount_in : Nat)
    (is_security_input : Bool) (fee_bps : Nat) (p' : Pool) (out fee : Nat)
    (hsec : 0 < p.security_liquidity) (hquote : 0 < p.quote_liquidity)
    (hsec64 : p.security_liquidity ≤ u64Max)
    (hquote64 : p.quote_liquidity ≤ u64Max)
    (hnosat : (if is_security_input then p.security_liquidity
               else p.quote_liquidity) + amount_in ≤ u64Max)
    (hok : p.swap_update amount_in is_security_input fee_bps =
      .ok (some (p', out, fee))) :
    p.security_liquidity * p.quote_liquidity ≤
      p'.security_liquidity * p'.quote_liquidity := by
  have hne : ¬ (p.security_liquidity = 0 ∨ p.quote_liquidity = 0) := by
    omega
  have hne' : ¬ (p.quote_liquidity = 0 ∨ p.security_liquidity = 0) := by
    omega
  have h64 : u64Max < 2 ^ 64 := by norm_num [u64Max]
  cases is_security_input
  · simp only [if_false, Bool.false_eq_true] at hnosat
    simp only [Pool.swap_update, Pool.calculate_swap_output,
      Bool.false_eq_true, if_false, if_neg hne'] at hok
    split_ifs at hok with hf
    injection hok with h1
    injection h1 with h2
    injection h2 with hp' hrest
    subst hp'
    have hqle : (amount_in - amount_in * fee_bps / 10000) *
        p.security_liquidity /
        (p.quote_liquidity + (amount_in - amount_in * fee_bps / 10000)) ≤
        p.security_liquidity := by
      calc (amount_in - amount_in * fee_bps / 10000) *
            p.security_liquidity /
            (p.quote_liquidity + (amount_in - amount_in * fee_bps / 10000))
          ≤ (p.quote_liquidity + (amount_in - amount_in * fee_bps / 10000)) *
              p.security_liquidity /
              (p.quote_liquidity + (amount_in - amount_in * fee_bps / 10000)) :=
            Nat.div_le_div_right (Nat.mul_le_mul_right _ (by omega))
        _ = p.security_liquidity := Nat.mul_div_cancel_left _ (by omega)
    rw [Nat.mod_eq_of_lt (lt_of_le_of_lt (le_trans hqle hsec64) h64)]
    have hsat : satAdd64 p.quote_liquidity amount_in =
        p.quote_liquidity + amount_in := by
      unfold satAdd64; omega
    rw [hsat]
    have hk := swap_k_lemma p.quote_liquidity p.security_liquidity amount_in
      (amount_in * fee_bps / 10000) hquote (not_lt.mp hf)
    rw [Nat.mul_comm p.security_liquidity p.quote_liquidity]
    exact le_trans hk (le_of_eq (Nat.mul_comm _ _))
  · simp only [if_true] at hnosat
    simp only [Pool.swap_update, Pool.calculate_swap_output, if_true,
      if_neg hne] at hok
    split_ifs at hok with hf
    injection hok with h1
    injection h1 with h2
    injection h2 with hp' hrest
    subst hp'
    have hqle : (amount_in - amount_in * fee_bps / 10000) *
        p.quote_liquidity /
        (p.security_liquidity + (amount_in - amount_in * fee_bps / 10000)) ≤
        p.quote_liquidity := by
      calc (amount_in - amount_in * fee_bps / 10000) * p.quote_liquidity /
            (p.security_liquidity +
              (amount_in - amount_in * fee_bps / 10000))
          ≤ (p.security_liquidity +
              (amount_in - amount_in * fee_bps / 10000)) *
              p.quote_liquidity /
              (p.security_liquidity +
                (amount_in - amount_in * fee_bps / 10000)) :=
            Nat.div_le_div_right (Nat.mul_le_mul_right _ (by omega))
        _ = p.quote_liquidity := Nat.mul_div_cancel_left _ (by omega)
    rw [Nat.mod_eq_of_lt (lt_of_le_of_lt (le_trans hqle hquote64) h64)]
    have hsat : satAdd64 p.security_liquidity amount_in =
        p.security_liquidity + amount_in := by
      unfold satAdd64; omega
    rw [hsat]
    exact swap_k_lemma p.security_liquidity p.quote_liquidity amount_in
      (amount_in * fee_bps / 10000) hsec (not_lt.mp hf)

/-- Witness for C1: the Scenario-1 swap (no saturation) grows the product
from 2·10¹⁵ to 1,010,000 × 1,980,256,840. -/
theorem C1_witness :
    scenario1Pool.security_liquidity * scenario1Pool.quote_liquidity ≤
      1010000 * 1980256840 :=
  C1_product_nondecreasing scenario1Pool 10000 true 30
    { scenario1Pool with
      security_liquidity := 1010000,
      quote_liquidity := 1980256840,
      accumulated_fees_security := 30 }
    19743160 30 (by decide) (by decide) (by decide) (by decide) (by decide)
    (by decide)

/-- Floor-division superadditivity transferred to Rust's truncating `i128`
division by the funding denominator 28800 = 8·3600, nonnegative operands. -/
theorem tdiv_28800_add_bounds (a b : Int) (ha : 0 ≤ a) (hb : 0 ≤ b) :
    a.tdiv 28800 + b.tdiv 28800 ≤ (a + b).tdiv 28800 ∧
    (a + b).tdiv 28800 ≤ a.tdiv 28800 + b.tdiv 28800 + 1 := by
  lift a to ℕ using ha with m
  lift b to ℕ using hb with n
  have e1 : (m : Int).tdiv 28800 = ((m / 28800 : Nat) : Int) := by
    exact_mod_cast (Int.ofNat_tdiv m 28800).symm
  have e2 : (n : Int).tdiv 28800 = ((n / 28800 : Nat) : Int) := by
    exact_mod_cast (Int.ofNat_tdiv n 28800).symm
  have e3 : ((m : Int) + n).tdiv 28800 = (((m + n) / 28800 : Nat) : Int) := by
    rw [← Nat.cast_add]
    exact_mod_cast (Int.ofNat_tdiv (m + n) 28800).symm
  rw [e1, e2, e3]
  have hup : (m + n) / 28800 ≤ m / 28800 + n / 28800 + 1 := by
    have h := @Nat.add_div m n 28800 (by norm_num)
    rw [h]; split_ifs <;> omega
  have hlo := Nat.add_div_le_add_div m n 28800
  exact ⟨by exact_mod_cast hlo, by exact_mod_cast hup⟩

/-- The truncating division by 28800 of a same-sign sum differs from the
sum of the two divisions by at most one. -/
theorem tdiv_28800_split_bounds (a b : Int)
    (hsgn : 0 ≤ a ∧ 0 ≤ b ∨ a ≤ 0 ∧ b ≤ 0) :
    a.tdiv 28800 + b.tdiv 28800 - 1 ≤ (a + b).tdiv 28800 ∧
    (a + b).tdiv 28800 ≤ a.tdiv 28800 + b.tdiv 28800 + 1 := by
  rcases hsgn with ⟨ha, hb⟩ | ⟨ha, hb⟩
  · have h := tdiv_28800_add_bounds a b ha hb
    exact ⟨by linarith [h.1], h.2⟩
  · have h := tdiv_28800_add_bounds (-a) (-b) (by omega) (by omega)
    rw [show -a + -b = -(a + b) by ring, Int.neg_tdiv, Int.neg_tdiv,
      Int.neg_tdiv] at h
    constructor <;> linarith [h.1, h.2]

/-- Claim C6 (counterexample): funding accrual is NOT exactly invariant
under call spacing.  For `c6p` (size 14,400, Long) at rate 1, two calls at
t = 1 and t = 2 each truncate `14400 / 28800` to 0 and accrue nothing,
while the single call at t = 2 accrues `28800 / 28800 = 1`, leaving
`accumulated_funding = -1`. -/
theorem C6_counterexample :
    Position.apply_funding c6p 1 1 = .ok c6q1 ∧
    Position.apply_funding c6q1 1 2 = .ok c6q2 ∧
    Position.apply_funding c6p 1 2 = .ok c6w ∧
    c6q2.accumulated_funding = 0 ∧ c6w.accumulated_funding = -1 ∧
    c6q2.accumulated_funding ≠ c6w.accumulated_funding :=
  ⟨by decide, by decide, by decide, by decide, by decide, by decide⟩

/-- Claim C6 (amended): under irregular call spacing `t0 < t1 < t2`, the
accumulated funding of the two-call schedule differs from the single call
by at most one unit (the truncating division `size·rate·elapsed / 28800`
loses at most 1 when split); both schedules leave `last_funding_update =
t2`; the Long side pays (weakly) when the rate is nonnegative; and a call
with `elapsed ≤ 0` is a no-op. -/
theorem C6_funding_call_spacing (p : Position) (rate t1 t2 : Int)
    (q1 q2 w : Position)
    (h01 : p.last_funding_update < t1) (h12 : t1 < t2)
    (hc1 : p.apply_funding rate t1 = .ok q1)
    (hc2 : q1.apply_funding rate t2 = .ok q2)
    (hs : p.apply_funding rate t2 = .ok w) :
    q2.last_funding_update = t2 ∧ w.last_funding_update = t2 ∧
    (q2.accumulated_funding - 1 ≤ w.accumulated_funding ∧
      w.accumulated_funding ≤ q2.accumulated_funding + 1) ∧
    (p.side = .Long → 0 ≤ rate →
      w.accumulated_funding ≤ p.accumulated_funding) ∧
    (∀ t, i64Min ≤ t - p.last_funding_update →
      t ≤ p.last_funding_update → p.apply_funding rate t = .ok p) := by
  have Hnoop : ∀ t, i64Min ≤ t - p.last_funding_update →
      t ≤ p.last_funding_update → p.apply_funding rate t = .ok p := by
    intro t hlo hhi
    simp only [Position.apply_funding]
    rw [if_pos ⟨hlo, by simp only [i64Max]; omega⟩, if_pos (by omega)]
  obtain ⟨ps, psz, pep, plv, pcl, pupnl, pacc, plu, plq, ptp, psl, pio,
    pca, pua⟩ := p
  simp only at h01 Hnoop ⊢
  have h83 : ((8 : Int) * 3600) = 28800 := by norm_num
  cases ps
  case Long =>
    simp only [Position.apply_funding, h83] at hc1
    split_ifs at hc1 with hb1 he1 hr1 ha1 <;> try (exfalso; omega)
    injection hc1 with hq1
    subst hq1
    simp only [Position.apply_funding, h83] at hc2
    split_ifs at hc2 with hb2 he2 hr2 ha2 <;> try (exfalso; omega)
    injection hc2 with hq2
    subst hq2
    simp only [Position.apply_funding, h83] at hs
    split_ifs at hs with hb3 he3 hr3 ha3 <;> try (exfalso; omega)
    injection hs with hw
    subst hw
    have hsum : (psz : Int) * rate * (t2 - plu) =
        (psz : Int) * rate * (t1 - plu) + (psz : Int) * rate * (t2 - t1) := by
      ring
    have hsgn : (0 ≤ (psz : Int) * rate * (t1 - plu) ∧
        0 ≤ (psz : Int) * rate * (t2 - t1)) ∨
        ((psz : Int) * rate * (t1 - plu) ≤ 0 ∧
          (psz : Int) * rate * (t2 - t1) ≤ 0) := by
      rcases le_or_lt 0 rate with hr | hr
      · exact Or.inl ⟨mul_nonneg (mul_nonneg (Int.natCast_nonneg psz) hr)
          (by omega), mul_nonneg (mul_nonneg (Int.natCast_nonneg psz) hr)
          (by omega)⟩
      · refine Or.inr ⟨?_, ?_⟩ <;>
          exact mul_nonpos_of_nonpos_of_nonneg
            (mul_nonpos_of_nonneg_of_nonpos (Int.natCast_nonneg psz) hr.le)
            (by omega)
    have key := tdiv_28800_split_bounds ((psz : Int) * rate * (t1 - plu))
      ((psz : Int) * rate * (t2 - t1)) hsgn
    refine ⟨rfl, rfl, ⟨?_, ?_⟩, ?_, Hnoop⟩
    · dsimp only
      rw [hsum]
      linarith [key.1, key.2]
    · dsimp only
      rw [hsum]
      linarith [key.1, key.2]
    · intro _ hr
      dsimp only
      have hc0 : 0 ≤ (psz : Int) * rate * (t2 - plu) :=
        mul_nonneg (mul_nonneg (Int.natCast_nonneg psz) hr) (by omega)
      have := Int.tdiv_nonneg hc0 (show (0 : Int) ≤ 28800 by norm_num)
      linarith
  case Short =>
    simp only [Position.apply_funding, h83] at hc1
    split_ifs at hc1 with hb1 he1 hr1 ha1 <;> try (exfalso; omega)
    injection hc1 with hq1
    subst hq1
    simp only [Position.apply_funding, h83] at hc2
    split_ifs at hc2 with hb2 he2 hr2 ha2 <;> try (exfalso; omega)
    injection hc2 with hq2
    subst hq2
    simp only [Position.apply_funding, h83] at hs
    split_ifs at hs with hb3 he3 hr3 ha3 <;> try (exfalso; omega)
    injection hs with hw
    subst hw
    have hsum : (psz : Int) * rate * (t2 - plu) =
        (psz : Int) * rate * (t1 - plu) + (psz : Int) * rate * (t2 - t1) := by
      ring
    have hsgn : (0 ≤ (psz : Int) * rate * (t1 - plu) ∧
        0 ≤ (psz : Int) * rate * (t2 - t1)) ∨
        ((psz : Int) * rate * (t1 - plu) ≤ 0 ∧
          (psz : Int) * rate * (t2 - t1) ≤ 0) := by
      rcases le_or_lt 0 rate with hr | hr
      · exact Or.inl ⟨mul_nonneg (mul_nonneg (Int.natCast_nonneg psz) hr)
          (by omega), mul_nonneg (mul_nonneg (Int.natCast_nonneg psz) hr)
          (by omega)⟩
      · refine Or.inr ⟨?_, ?_⟩ <;>
          exact mul_nonpos_of_nonpos_of_nonneg
            (mul_nonpos_of_nonneg_of_nonpos (Int.natCast_nonneg psz) hr.le)
            (by omega)
    have key := tdiv_28800_split_bounds ((psz : Int) * rate * (t1 - plu))
      ((psz : Int) * rate * (t2 - t1)) hsgn
    refine ⟨rfl, rfl, ⟨?_, ?_⟩, ?_, Hnoop⟩
    · dsimp only
      rw [hsum]
      linarith [key.1, key.2]
    · dsimp only
      rw [hsum]
      linarith [key.1, key.2]
    · intro hss
      exact absurd hss (by decide)

/-- Witness for C6: the amended claim at the concrete schedule
`t0 = 0 < 1 < 2` on `c6p` with rate 1. -/
theorem C6_witness :
    c6q2.last_funding_update = 2 ∧ c6w.last_funding_update = 2 ∧
    (c6q2.accumulated_funding - 1 ≤ c6w.accumulated_funding ∧
      c6w.accumulated_funding ≤ c6q2.accumulated_funding + 1) ∧
    Position.apply_funding c6p 1 (-5) = .ok c6p := by
  have h := C6_funding_call_spacing c6p 1 1 2 c6q1 c6q2 c6w (by decide)
    (by decide) (by decide) (by decide) (by decide)
  exact ⟨h.1, h.2.1, h.2.2.1, h.2.2.2.2 (-5) (by decide) (by decide)⟩

end Meridian
